import Mathlib

/-!
Shallow embedding of the frame-filtering configuration engine of the
stm32-eth driver (src/mac/frame_filtering/mod.rs) and of the example
poll loop (examples/pktgen.rs).

Hardware register writes are modelled as an ordered trace of abstract
write events; `configure` returns the trace of writes it performed
together with a success flag (`false` means the Rust assert! panicked,
and the trace holds exactly the writes issued before the panic).
Machine integers are modelled as `Nat`; byte validity (< 256) is an
explicit hypothesis where it matters.
-/

/-- A big-endian MAC address: six raw bytes in transmission order.
Mirrors `struct Mac([u8; 6])`; each field is one byte. -/
structure Mac where
  b0 : Nat
  b1 : Nat
  b2 : Nat
  b3 : Nat
  b4 : Nat
  b5 : Nat
deriving DecidableEq, Repr

/-- All six bytes of the address are in byte range. -/
def Mac.valid (m : Mac) : Prop :=
  m.b0 < 256 ∧ m.b1 < 256 ∧ m.b2 < 256 ∧ m.b3 < 256 ∧ m.b4 < 256 ∧ m.b5 < 256

instance (m : Mac) : Decidable m.valid := by
  unfold Mac.valid; infer_instance

/-- Mirrors `Mac::is_multicast`: tests `(self.0[0] & 0b1) == 0b1`. -/
def Mac.is_multicast (m : Mac) : Bool :=
  (m.b0 &&& 1) == 1

/-- Mirrors `Mac::is_locally_administred`: tests `(self.0[0] & 0b10) == 0b10`. -/
def Mac.is_locally_administred (m : Mac) : Bool :=
  (m.b0 &&& 2) == 2

/-- Mirrors `Mac::is_broadcast`: all six bytes equal 0xFF. -/
def Mac.is_broadcast (m : Mac) : Bool :=
  [m.b0, m.b1, m.b2, m.b3, m.b4, m.b5].all (· == 255)

/-- Mirrors `Mac::high`: `u16::from_ne_bytes([self.0[5], self.0[4]])` on a
little-endian target, i.e. byte 5 is the least significant byte. -/
def Mac.high (m : Mac) : Nat :=
  m.b5 + 256 * m.b4

/-- Mirrors `Mac::low`: `u32::from_ne_bytes([self.0[3], self.0[2], self.0[1],
self.0[0]])` on a little-endian target, i.e. byte 3 is least significant. -/
def Mac.low (m : Mac) : Nat :=
  m.b3 + 256 * m.b2 + 65536 * m.b1 + 16777216 * m.b0

/-- Decoder for the register encoding, written from the spec: recover the six
bytes from the high/low register values by the same byte-order convention
(high = [byte5, byte4] little-endian, low = [byte3, byte2, byte1, byte0]
little-endian). -/
def macFromRegs (hi lo : Nat) : Mac :=
  { b0 := lo / 16777216 % 256
    b1 := lo / 65536 % 256
    b2 := lo / 256 % 256
    b3 := lo % 256
    b4 := hi / 256 % 256
    b5 := hi % 256 }

/-- The all-0xFF broadcast MAC address. -/
def broadcastMac : Mac :=
  { b0 := 255, b1 := 255, b2 := 255, b3 := 255, b4 := 255, b5 := 255 }

/-- Mirrors the bitflags type `MacAddressFilterMask`: one ignore flag per
address byte (`BYTE5 = 1 << 5`, ..., `BYTE0 = 1 << 0`). -/
structure MacAddressFilterMask where
  byte5 : Bool
  byte4 : Bool
  byte3 : Bool
  byte2 : Bool
  byte1 : Bool
  byte0 : Bool
deriving DecidableEq, Repr

/-- Mirrors bitflags `bits()`: the raw value with flag BYTEk at bit k. -/
def MacAddressFilterMask.bits (m : MacAddressFilterMask) : Nat :=
  (if m.byte5 then 32 else 0) + (if m.byte4 then 16 else 0) +
  (if m.byte3 then 8 else 0) + (if m.byte2 then 4 else 0) +
  (if m.byte1 then 2 else 0) + (if m.byte0 then 1 else 0)

/-- Mirrors bitflags `MacAddressFilterMask::empty()`: no flag set. -/
def MacAddressFilterMask.empty : MacAddressFilterMask :=
  { byte5 := false, byte4 := false, byte3 := false
    byte2 := false, byte1 := false, byte0 := false }

/-- Mirrors `struct MacAddressFilter { address, mask }`. -/
structure MacAddressFilter where
  address : Mac
  mask : MacAddressFilterMask
deriving DecidableEq, Repr

/-- Mirrors `MacAddressFilter::new`. -/
def MacAddressFilter.new (address : Mac) (mask : MacAddressFilterMask) :
    MacAddressFilter :=
  { address := address, mask := mask }

/-- Modelled from the spec: destination-address perfect filtering mode,
Normal(list) or Inverse(list) (the defining file src/mac/frame_filtering/
destination.rs is not in the source tree; variants are those matched in
mod.rs and listed in spec section 3). -/
inductive PerfectDestinationAddressFiltering where
  | Normal (addrs : List MacAddressFilter)
  | Inverse (addrs : List MacAddressFilter)
deriving DecidableEq, Repr

/-- Modelled from the spec: destination filtering aggregate with the
perfect-filtering mode and the hash-assist flag (src/mac/frame_filtering/
destination.rs is not in the source tree; fields are those read in mod.rs). -/
structure DestinationAddressFiltering where
  perfect_filtering : PerfectDestinationAddressFiltering
  hash_table_filtering : Bool
deriving DecidableEq, Repr

/-- Modelled from the spec: source-address filtering mode, Ignore, Normal(list)
or Inverse(list) (src/mac/frame_filtering/source.rs is not in the source tree;
variants are those matched in mod.rs and listed in spec section 3). -/
inductive SourceAddressFiltering where
  | Ignore
  | Normal (addrs : List MacAddressFilter)
  | Inverse (addrs : List MacAddressFilter)
deriving DecidableEq, Repr

/-- Modelled from the spec: multicast filtering mode, PassAll,
DestinationAddressHash or DestinationAddress(list) (src/mac/frame_filtering/
multicast.rs is not in the source tree; variants are those matched in mod.rs
and listed in spec section 3). -/
inductive MulticastAddressFiltering where
  | PassAll
  | DestinationAddressHash
  | DestinationAddress (addrs : List MacAddressFilter)
deriving DecidableEq, Repr

/-- Modelled from the spec: control-frame filtering mode with the four
variants BlockAll, NoPause, AllowAll, AddressFilter (src/mac/frame_filtering/
control.rs is not in the source tree; variants are those matched in mod.rs). -/
inductive ControlFrameFiltering where
  | BlockAll
  | NoPause
  | AllowAll
  | AddressFilter
deriving DecidableEq, Repr

/-- Modelled from the spec: 64-bit hash table bitmap as two unsigned 32-bit
halves (src/mac/frame_filtering/hash_table.rs is not in the source tree;
the fields high and low are those read in mod.rs, spec section 3). -/
structure HashTableValue where
  high : Nat
  low : Nat
deriving DecidableEq, Repr

/-- Modelled from the spec: `HashTableValue::new()` builds the empty (all-zero)
hash table, used by filter_destinations for the safe default profile. -/
def HashTableValue.new : HashTableValue :=
  { high := 0, low := 0 }

/-- Mirrors `struct FrameFiltering` with its eight fields. -/
structure FrameFiltering where
  address : Mac
  destination_address_filter : DestinationAddressFiltering
  source_address_filter : SourceAddressFiltering
  multicast_address_filter : MulticastAddressFiltering
  control_filter : ControlFrameFiltering
  hash_table_value : HashTableValue
  filter_broadcast : Bool
  receive_all : Bool
deriving DecidableEq, Repr

/-- Mirrors `enum FrameFilteringMode`. -/
inductive FrameFilteringMode where
  | Promiscuous
  | Filter (config : FrameFiltering)
deriving DecidableEq, Repr

/-- The field content of one write to the MACFFR frame-filter control
register. A svd2rust `write` starts from the register reset value (all zero
for MACFFR), so fields not set by the closure are false / 0. -/
structure MacffrFields where
  hpf : Bool := false
  pm : Bool := false
  ra : Bool := false
  saf : Bool := false
  saif : Bool := false
  pcf : Nat := 0
  bfd : Bool := false
  pam : Bool := false
  daif : Bool := false
  hm : Bool := false
  hu : Bool := false
deriving DecidableEq, Repr

/-- One hardware register write event, in program order.
slotHigh / slotLow carry the filter-slot number (1..3) of the MACAxHR /
MACAxLR register pair they target. -/
inductive RegWrite where
  | maca0hr (v : Nat)
  | maca0lr (v : Nat)
  | slotHigh (slot : Nat) (ae : Bool) (sa : Bool) (mbc : Nat) (addrHigh : Nat)
  | slotLow (slot : Nat) (v : Nat)
  | macffr (f : MacffrFields)
  | machthr (v : Nat)
  | machtlr (v : Nat)
deriving DecidableEq, Repr

/-- Mirrors one expansion of the Rust next_addr_reg rule for the given slot:
`dest_addrs.next().map(|v| (v, false)).or(source_addrs.next().map(|v| (v, true)))`.
Rust Option::or is eager, so BOTH iterators are advanced by one on every
expansion: the head of each list is consumed even when the destination head
is the entry used (the source head is then silently dropped). When an entry
is chosen, write the high register (ae set, sa tag, mbc mask bits, address
high part) then the low register (address low part); otherwise write
nothing. -/
def next_addr_reg (slot : Nat)
    (st : List MacAddressFilter × List MacAddressFilter) :
    List RegWrite × (List MacAddressFilter × List MacAddressFilter) :=
  match (st.1.head?.map fun v => (v, false)).or
      (st.2.head?.map fun v => (v, true)) with
  | some (addr, sa) =>
      ([RegWrite.slotHigh slot true sa addr.mask.bits addr.address.high,
        RegWrite.slotLow slot addr.address.low], (st.1.tail, st.2.tail))
  | none => ([], (st.1.tail, st.2.tail))

/-- Mirrors `FrameFiltering::configure`. Returns the ordered trace of register
writes performed and a success flag; the flag is false when the Rust
`assert!(source + dest + multicast <= 3)` fires, in which case the trace holds
exactly the writes already issued before the panic (the two station-address
writes, which in the source precede the assert). -/
def FrameFiltering.configure (f : FrameFiltering) : List RegWrite × Bool :=
  let stationWrites :=
    [RegWrite.maca0hr f.address.high, RegWrite.maca0lr f.address.low]
  let dai := match f.destination_address_filter.perfect_filtering with
    | PerfectDestinationAddressFiltering.Normal addrs => (false, addrs)
    | PerfectDestinationAddressFiltering.Inverse addrs => (true, addrs)
  let daif := dai.1
  let dest_addrs := dai.2
  let hu := f.destination_address_filter.hash_table_filtering
  let sai := match f.source_address_filter with
    | SourceAddressFiltering.Ignore => (false, false, [])
    | SourceAddressFiltering.Normal addrs => (true, false, addrs)
    | SourceAddressFiltering.Inverse addrs => (true, true, addrs)
  let saf := sai.1
  let saif := sai.2.1
  let source_addrs := sai.2.2
  let pamh := match f.multicast_address_filter with
    | MulticastAddressFiltering.PassAll => (true, false, [])
    | MulticastAddressFiltering.DestinationAddressHash => (false, true, [])
    | MulticastAddressFiltering.DestinationAddress addrs =>
        (false, false, addrs)
  let pam := pamh.1
  let hm := pamh.2.1
  let multicast_addrs := pamh.2.2
  let pcf := match f.control_filter with
    | ControlFrameFiltering.BlockAll => 0
    | ControlFrameFiltering.NoPause => 1
    | ControlFrameFiltering.AllowAll => 2
    | ControlFrameFiltering.AddressFilter => 3
  if source_addrs.length + dest_addrs.length + multicast_addrs.length ≤ 3 then
    let r1 := next_addr_reg 1 (dest_addrs, source_addrs)
    let r2 := next_addr_reg 2 r1.2
    let r3 := next_addr_reg 3 r2.2
    (stationWrites ++ r1.1 ++ r2.1 ++ r3.1 ++
      [RegWrite.macffr
        { hpf := false, pm := false, ra := f.receive_all, saf := saf
          saif := saif, pcf := pcf, bfd := f.filter_broadcast, pam := pam
          daif := daif, hm := hm, hu := hu },
       RegWrite.machthr f.hash_table_value.high,
       RegWrite.machtlr f.hash_table_value.low], true)
  else
    (stationWrites, false)

/-- Mirrors `FrameFilteringMode::configure`: promiscuous mode is a single
MACFFR write with only the pm bit set (all other fields at the reset
default); filtering mode delegates to `FrameFiltering::configure`. -/
def FrameFilteringMode.configure : FrameFilteringMode → List RegWrite × Bool
  | FrameFilteringMode.Promiscuous =>
      ([RegWrite.macffr { pm := true }], true)
  | FrameFilteringMode.Filter config => config.configure

/-- Mirrors `FrameFiltering::filter_destinations`: the safe default profile
accepting the station address plus the extra destination addresses with no
masking. -/
def FrameFiltering.filter_destinations (station_addr : Mac)
    (extra_addresses : List Mac) : FrameFiltering :=
  { address := station_addr
    destination_address_filter :=
      { perfect_filtering := PerfectDestinationAddressFiltering.Normal
          (extra_addresses.map fun a =>
            MacAddressFilter.new a MacAddressFilterMask.empty)
        hash_table_filtering := false }
    source_address_filter := SourceAddressFiltering.Ignore
    multicast_address_filter := MulticastAddressFiltering.PassAll
    control_filter := ControlFrameFiltering.BlockAll
    hash_table_value := HashTableValue.new
    filter_broadcast := false
    receive_all := false }

/-! ### Spec-side views of a policy

These definitions follow the wording of the specification (destination list,
source list, multicast-by-address list, derived scalar control bits, the
destination-first slot plan); the theorems below relate them to the trace
produced by the source-translated `FrameFiltering.configure`. -/

/-- The destination filter list of a policy (from either Normal or Inverse). -/
def FrameFiltering.destList (f : FrameFiltering) : List MacAddressFilter :=
  match f.destination_address_filter.perfect_filtering with
  | PerfectDestinationAddressFiltering.Normal addrs => addrs
  | PerfectDestinationAddressFiltering.Inverse addrs => addrs

/-- The destination inversion bit: true exactly for Inverse mode. -/
def FrameFiltering.destInverse (f : FrameFiltering) : Bool :=
  match f.destination_address_filter.perfect_filtering with
  | PerfectDestinationAddressFiltering.Normal _ => false
  | PerfectDestinationAddressFiltering.Inverse _ => true

/-- The source filter list of a policy (empty when source mode is Ignore). -/
def FrameFiltering.sourceList (f : FrameFiltering) : List MacAddressFilter :=
  match f.source_address_filter with
  | SourceAddressFiltering.Ignore => []
  | SourceAddressFiltering.Normal addrs => addrs
  | SourceAddressFiltering.Inverse addrs => addrs

/-- The source-filter-enabled bit: true unless source mode is Ignore. -/
def FrameFiltering.sourceEnabled (f : FrameFiltering) : Bool :=
  match f.source_address_filter with
  | SourceAddressFiltering.Ignore => false
  | SourceAddressFiltering.Normal _ => true
  | SourceAddressFiltering.Inverse _ => true

/-- The source inversion bit: true exactly for Inverse source mode. -/
def FrameFiltering.sourceInverse (f : FrameFiltering) : Bool :=
  match f.source_address_filter with
  | SourceAddressFiltering.Ignore => false
  | SourceAddressFiltering.Normal _ => false
  | SourceAddressFiltering.Inverse _ => true

/-- The multicast-by-address list (empty unless mode is DestinationAddress). -/
def FrameFiltering.multicastList (f : FrameFiltering) : List MacAddressFilter :=
  match f.multicast_address_filter with
  | MulticastAddressFiltering.PassAll => []
  | MulticastAddressFiltering.DestinationAddressHash => []
  | MulticastAddressFiltering.DestinationAddress addrs => addrs

/-- The multicast pass-all bit. -/
def FrameFiltering.multicastPassAll (f : FrameFiltering) : Bool :=
  match f.multicast_address_filter with
  | MulticastAddressFiltering.PassAll => true
  | MulticastAddressFiltering.DestinationAddressHash => false
  | MulticastAddressFiltering.DestinationAddress _ => false

/-- The multicast hash bit. -/
def FrameFiltering.multicastHash (f : FrameFiltering) : Bool :=
  match f.multicast_address_filter with
  | MulticastAddressFiltering.PassAll => false
  | MulticastAddressFiltering.DestinationAddressHash => true
  | MulticastAddressFiltering.DestinationAddress _ => false

/-- The combined filter-list length checked against the 3-slot limit,
in the order of the assert (source, destination, multicast). -/
def FrameFiltering.filterCount (f : FrameFiltering) : Nat :=
  f.sourceList.length + f.destList.length + f.multicastList.length

/-- The 2-bit control-frame code from the spec:
BlockAll = 0, NoPause = 1, AllowAll = 2, AddressFilter = 3. -/
def pcfCode : ControlFrameFiltering → Nat
  | ControlFrameFiltering.BlockAll => 0
  | ControlFrameFiltering.NoPause => 1
  | ControlFrameFiltering.AllowAll => 2
  | ControlFrameFiltering.AddressFilter => 3

/-- The MACFFR field content the spec prescribes for a policy: promiscuous and
hash-or-perfect bits cleared, each scalar bit derived from the corresponding
enum selection, and the 2-bit control-frame code. -/
def expectedMacffr (f : FrameFiltering) : MacffrFields :=
  { hpf := false
    pm := false
    ra := f.receive_all
    saf := f.sourceEnabled
    saif := f.sourceInverse
    pcf := pcfCode f.control_filter
    bfd := f.filter_broadcast
    pam := f.multicastPassAll
    daif := f.destInverse
    hm := f.multicastHash
    hu := f.destination_address_filter.hash_table_filtering }

/-- The slot plan the spec prescribes: destination-list entries first (tagged
false), then source-list entries (tagged true), in list order, cut to the 3
slots. The code does NOT realize this plan when both lists are nonempty; it
is kept to exhibit the divergence. -/
def slotPlan (dest source : List MacAddressFilter) :
    List (MacAddressFilter × Bool) :=
  (dest.map (fun a => (a, false)) ++ source.map (fun a => (a, true))).take 3

/-- The slot entries the code actually realizes, one per expansion of the
eager next_addr_reg rule: the entry for slot index i is the i-th destination
entry if it exists, else the i-th source entry if it exists (both lists are
advanced each expansion, so source entries at indices below the destination
length are dropped). -/
def slotOverlay :
    List MacAddressFilter → List MacAddressFilter →
    List (MacAddressFilter × Bool)
  | [], ss => ss.map (fun s => (s, true))
  | d :: ds, ss => (d, false) :: slotOverlay ds ss.tail

/-- The register writes the spec prescribes for the planned slot entries,
numbering slots consecutively from the given first slot: each entry writes the
high register (address-enable set, its source tag, its mask bits, the address
high part) then the low register (the address low part). -/
def slotProgram : Nat → List (MacAddressFilter × Bool) → List RegWrite
  | _, [] => []
  | slot, (e, sa) :: rest =>
      RegWrite.slotHigh slot true sa e.mask.bits e.address.high ::
      RegWrite.slotLow slot e.address.low ::
      slotProgram (slot + 1) rest

/-- The slot number a write targets, when it is a filter-slot write. -/
def RegWrite.slotIndex : RegWrite → Option Nat
  | RegWrite.slotHigh s _ _ _ _ => some s
  | RegWrite.slotLow s _ => some s
  | _ => none

/-- Whether a write targets one of the three filter-slot register pairs. -/
def RegWrite.isSlotWrite (w : RegWrite) : Bool :=
  w.slotIndex.isSome

/-- Whether a write targets the MACFFR filtering-control register. -/
def RegWrite.isMacffrWrite : RegWrite → Bool
  | RegWrite.macffr _ => true
  | _ => false

/-- Whether a write targets one of the two hash-table registers. -/
def RegWrite.isHashWrite : RegWrite → Bool
  | RegWrite.machthr _ => true
  | RegWrite.machtlr _ => true
  | _ => false

/-! ### The example poll loop of examples/pktgen.rs

The shared pending-event flag ETH_PENDING is modelled as a Bool in the poll
state. Each interrupt-masking critical section of the source is one atomic
step: the ETH interrupt handler sets the flag (isrFire); the loop body clears
the flag (clearFlag, lines 109-112), drains received frames (drainRx), fills
the transmit queue (fillTx), and finally re-checks the flag and executes
wait-for-interrupt only when it is unset (sleepCheck, lines 153-158, where
the check and the wfi sit inside one interrupt::free block). A loop
iteration interleaved with interrupt firings is a schedule listing the four
loop steps in program order with any number of isrFire steps between them. -/

/-- One atomic step of the poll loop or the ETH interrupt handler. -/
inductive PollAction where
  | isrFire
  | clearFlag
  | drainRx
  | fillTx
  | sleepCheck
deriving DecidableEq, Repr

/-- Poll-loop state: the shared pending flag and how many times the loop has
suspended with wait-for-interrupt. -/
structure PollState where
  pending : Bool
  wfiCount : Nat
deriving DecidableEq, Repr

/-- Step semantics: the ISR sets the pending flag; clearFlag resets it;
draining and filling do not touch it; sleepCheck executes wfi exactly when
the flag is unset (check and wfi are one critical section in the source). -/
def pollStep (st : PollState) : PollAction → PollState
  | PollAction.isrFire => { st with pending := true }
  | PollAction.clearFlag => { st with pending := false }
  | PollAction.drainRx => st
  | PollAction.fillTx => st
  | PollAction.sleepCheck =>
      if st.pending then st else { st with wfiCount := st.wfiCount + 1 }

/-- Run a schedule of atomic steps from a state. -/
def pollRun : PollState → List PollAction → PollState
  | st, [] => st
  | st, a :: l => pollRun (pollStep st a) l

/-- One poll-loop iteration in source program order (clear, drain, fill,
sleep-check), interleaved with a0 / a1 / a2 / a3 interrupt firings before the
clear, after the clear, after the drain, and after the fill respectively. -/
def iterationSched (a0 a1 a2 a3 : Nat) : List PollAction :=
  List.replicate a0 PollAction.isrFire ++
    PollAction.clearFlag ::
      (List.replicate a1 PollAction.isrFire ++
        PollAction.drainRx ::
          (List.replicate a2 PollAction.isrFire ++
            PollAction.fillTx ::
              (List.replicate a3 PollAction.isrFire ++
                [PollAction.sleepCheck])))

/-! ### Concrete sample policies used by witnesses and counterexamples -/

/-- A policy with four destination filters: one more than the hardware has
extra perfect-match slots. -/
def overfullPolicy : FrameFiltering :=
  { address := { b0 := 1, b1 := 2, b2 := 3, b3 := 4, b4 := 5, b5 := 6 }
    destination_address_filter :=
      { perfect_filtering := PerfectDestinationAddressFiltering.Normal
          [{ address := { b0 := 1, b1 := 1, b2 := 1, b3 := 1, b4 := 1, b5 := 1 }
             mask := MacAddressFilterMask.empty },
           { address := { b0 := 2, b1 := 2, b2 := 2, b3 := 2, b4 := 2, b5 := 2 }
             mask := MacAddressFilterMask.empty },
           { address := { b0 := 3, b1 := 3, b2 := 3, b3 := 3, b4 := 3, b5 := 3 }
             mask := MacAddressFilterMask.empty },
           { address := { b0 := 4, b1 := 4, b2 := 4, b3 := 4, b4 := 4, b5 := 4 }
             mask := MacAddressFilterMask.empty }]
        hash_table_filtering := false }
    source_address_filter := SourceAddressFiltering.Ignore
    multicast_address_filter := MulticastAddressFiltering.PassAll
    control_filter := ControlFrameFiltering.BlockAll
    hash_table_value := { high := 0, low := 0 }
    filter_broadcast := false
    receive_all := false }

/-- A valid policy with one destination filter and one source filter. -/
def samplePolicy : FrameFiltering :=
  { address := { b0 := 170, b1 := 187, b2 := 204, b3 := 221, b4 := 238
                 b5 := 255 }
    destination_address_filter :=
      { perfect_filtering := PerfectDestinationAddressFiltering.Normal
          [{ address := { b0 := 17, b1 := 34, b2 := 51, b3 := 68, b4 := 85
                          b5 := 102 }
             mask := MacAddressFilterMask.empty }]
        hash_table_filtering := true }
    source_address_filter := SourceAddressFiltering.Inverse
      [{ address := { b0 := 9, b1 := 8, b2 := 7, b3 := 6, b4 := 5, b5 := 4 }
         mask := { byte5 := true, byte4 := false, byte3 := false
                   byte2 := false, byte1 := false, byte0 := true } }]
    multicast_address_filter := MulticastAddressFiltering.DestinationAddressHash
    control_filter := ControlFrameFiltering.AllowAll
    hash_table_value := { high := 3735928559, low := 3405691582 }
    filter_broadcast := true
    receive_all := false }

/-! ### Structural lemmas about the slot-programming chain -/

/-- The three sequential next_addr_reg invocations produce exactly the writes
of the slot program for the realized overlay plan (both iterators advance on
every expansion, so destination entries shadow same-index source entries). -/
theorem next_addr_reg_chain (d s : List MacAddressFilter) :
    (next_addr_reg 1 (d, s)).1 ++
      ((next_addr_reg 2 (next_addr_reg 1 (d, s)).2).1 ++
        (next_addr_reg 3 (next_addr_reg 2 (next_addr_reg 1 (d, s)).2).2).1) =
    slotProgram 1 ((slotOverlay d s).take 3) := by
  rcases d with _ | ⟨d1, _ | ⟨d2, _ | ⟨d3, ds⟩⟩⟩ <;>
    rcases s with _ | ⟨s1, _ | ⟨s2, _ | ⟨s3, ss⟩⟩⟩ <;>
      simp [next_addr_reg, slotOverlay, slotProgram, Option.or, List.take]

/-- The slot program writes two registers per planned entry. -/
theorem slotProgram_length (k : Nat) (plan : List (MacAddressFilter × Bool)) :
    (slotProgram k plan).length = 2 * plan.length := by
  induction plan generalizing k with
  | nil => rfl
  | cons e rest ih =>
      obtain ⟨a, sa⟩ := e
      simp [slotProgram, ih]
      ring

/-- Every write of the slot program is a slot write, targeting a slot in the
consecutive range starting at the first slot number. -/
theorem slotProgram_slotIndex (k : Nat) (plan : List (MacAddressFilter × Bool))
    (w : RegWrite) (hw : w ∈ slotProgram k plan) :
    w.isSlotWrite = true ∧
      ∀ s, w.slotIndex = some s → k ≤ s ∧ s < k + plan.length := by
  induction plan generalizing k with
  | nil => simp [slotProgram] at hw
  | cons e rest ih =>
      obtain ⟨a, sa⟩ := e
      simp [slotProgram] at hw
      rcases hw with h | h | h
      · subst h
        refine ⟨rfl, ?_⟩
        intro s hs
        simp only [RegWrite.slotIndex, Option.some.injEq] at hs
        simp only [List.length_cons]
        omega
      · subst h
        refine ⟨rfl, ?_⟩
        intro s hs
        simp only [RegWrite.slotIndex, Option.some.injEq] at hs
        simp only [List.length_cons]
        omega
      · obtain ⟨h1, h2⟩ := ih (k + 1) h
        refine ⟨h1, ?_⟩
        intro s hs
        have := h2 s hs
        simp only [List.length_cons]
        omega

/-- No write of the slot program touches the MACFFR control register. -/
theorem slotProgram_no_macffr (k : Nat) (plan : List (MacAddressFilter × Bool)) :
    (slotProgram k plan).filter RegWrite.isMacffrWrite = [] := by
  induction plan generalizing k with
  | nil => rfl
  | cons e rest ih =>
      obtain ⟨a, sa⟩ := e
      simp [slotProgram, List.filter, RegWrite.isMacffrWrite, ih]

/-- All writes of the slot program are slot writes, so filtering keeps them. -/
theorem slotProgram_filter_slot (k : Nat)
    (plan : List (MacAddressFilter × Bool)) :
    (slotProgram k plan).filter RegWrite.isSlotWrite = slotProgram k plan := by
  induction plan generalizing k with
  | nil => rfl
  | cons e rest ih =>
      obtain ⟨a, sa⟩ := e
      simp [slotProgram, List.filter, RegWrite.isSlotWrite, RegWrite.slotIndex,
        ih]

/-- Master characterization of `FrameFiltering.configure`: within the slot
limit the trace is the two station-address writes, the slot program of the
realized overlay plan, the single batched MACFFR write with the spec-derived
fields, and the two hash-table writes; above the limit the configuration
fails with only the two station-address writes issued. -/
theorem configure_eq (f : FrameFiltering) :
    f.configure =
      if f.filterCount ≤ 3 then
        ([RegWrite.maca0hr f.address.high, RegWrite.maca0lr f.address.low] ++
          (slotProgram 1 ((slotOverlay f.destList f.sourceList).take 3) ++
            [RegWrite.macffr (expectedMacffr f),
             RegWrite.machthr f.hash_table_value.high,
             RegWrite.machtlr f.hash_table_value.low]), true)
      else
        ([RegWrite.maca0hr f.address.high, RegWrite.maca0lr f.address.low],
          false) := by
  obtain ⟨addr, ⟨pf, hu⟩, sf, mf, cf, htv, fb, ra⟩ := f
  rcases pf <;> rcases sf <;> rcases mf <;>
    simp [FrameFiltering.configure, FrameFiltering.filterCount,
      FrameFiltering.destList, FrameFiltering.sourceList,
      FrameFiltering.multicastList, FrameFiltering.destInverse,
      FrameFiltering.sourceEnabled, FrameFiltering.sourceInverse,
      FrameFiltering.multicastPassAll, FrameFiltering.multicastHash,
      expectedMacffr, pcfCode, next_addr_reg_chain]

/-! ### Claim theorems -/

/-- C3: for every 6-byte MAC address, encoding with Mac.high (bytes
[byte5, byte4] as a 16-bit value) and Mac.low (bytes [byte3, byte2, byte1,
byte0] as a 32-bit value) and decoding back by the same byte-order convention
yields the original bytes, and the encoding is injective on valid addresses. -/
theorem mac_reg_encoding_roundtrip (m : Mac) (h : m.valid) :
    macFromRegs m.high m.low = m ∧
      ∀ m2 : Mac, m2.valid → m.high = m2.high → m.low = m2.low → m = m2 := by
  obtain ⟨b0, b1, b2, b3, b4, b5⟩ := m
  simp only [Mac.valid] at h
  obtain ⟨h0, h1, h2, h3, h4, h5⟩ := h
  constructor
  · simp only [macFromRegs, Mac.high, Mac.low, Mac.mk.injEq]
    refine ⟨?_, ?_, ?_, ?_, ?_, ?_⟩ <;> omega
  · intro m2 hv2 hh hl
    obtain ⟨c0, c1, c2, c3, c4, c5⟩ := m2
    simp only [Mac.valid] at hv2
    obtain ⟨g0, g1, g2, g3, g4, g5⟩ := hv2
    simp only [Mac.high, Mac.low] at hh hl
    simp only [Mac.mk.injEq]
    refine ⟨?_, ?_, ?_, ?_, ?_, ?_⟩ <;> omega

/-- Witness for C3 at the address AA:BB:CC:DD:EE:FF. -/
theorem mac_reg_encoding_roundtrip_witness :
    macFromRegs
        (Mac.high { b0 := 170, b1 := 187, b2 := 204, b3 := 221, b4 := 238
                    b5 := 255 })
        (Mac.low { b0 := 170, b1 := 187, b2 := 204, b3 := 221, b4 := 238
                   b5 := 255 }) =
      { b0 := 170, b1 := 187, b2 := 204, b3 := 221, b4 := 238, b5 := 255 } :=
  (mac_reg_encoding_roundtrip
    { b0 := 170, b1 := 187, b2 := 204, b3 := 221, b4 := 238, b5 := 255 }
    (by decide)).1

/-- C6: is_multicast holds exactly when bit 0 of byte 0 is set, is_broadcast
holds exactly when all six bytes are 0xFF, and the two predicates hold
together exactly at the all-0xFF broadcast address. -/
theorem mac_multicast_broadcast_predicates (m : Mac) :
    (m.is_multicast = true ↔ Nat.testBit m.b0 0 = true) ∧
    (m.is_broadcast = true ↔
      (m.b0 = 255 ∧ m.b1 = 255 ∧ m.b2 = 255 ∧ m.b3 = 255 ∧ m.b4 = 255 ∧
        m.b5 = 255)) ∧
    ((m.is_multicast = true ∧ m.is_broadcast = true) ↔ m = broadcastMac) := by
  obtain ⟨b0, b1, b2, b3, b4, b5⟩ := m
  refine ⟨?_, ?_, ?_⟩
  · simp [Mac.is_multicast, Nat.and_one_is_mod, Nat.testBit_zero]
  · simp [Mac.is_broadcast]
  · simp only [Mac.is_multicast, Mac.is_broadcast, broadcastMac, Mac.mk.injEq,
      Nat.and_one_is_mod, List.all_cons, List.all_nil, Bool.and_true,
      Bool.and_eq_true, beq_iff_eq]
    omega

/-- C4: configuring promiscuous mode writes only the filtering-control
register, with the promiscuous bit set and every other field at its reset
default, and performs no filter-slot or hash-table register write. -/
theorem promiscuous_configure_trace :
    FrameFilteringMode.configure FrameFilteringMode.Promiscuous =
      ([RegWrite.macffr
          { hpf := false, pm := true, ra := false, saf := false, saif := false
            pcf := 0, bfd := false, pam := false, daif := false, hm := false
            hu := false }], true) ∧
    ∀ w ∈ (FrameFilteringMode.configure FrameFilteringMode.Promiscuous).1,
      w.slotIndex = none ∧ w.isHashWrite = false := by
  refine ⟨rfl, ?_⟩
  intro w hw
  simp [FrameFilteringMode.configure] at hw
  subst hw
  exact ⟨rfl, rfl⟩

/-- C1 counterexample: a policy with four destination filters fails the slot
check, but only after the two station-address registers (MACA0HR, MACA0LR)
have already been written, so its failure trace is not empty. -/
theorem overfull_configure_writes_before_failure :
    overfullPolicy.configure =
      ([RegWrite.maca0hr 1286, RegWrite.maca0lr 16909060], false) ∧
    overfullPolicy.configure.1 ≠ [] := by
  constructor
  · rfl
  · intro h
    simp [overfullPolicy, FrameFiltering.configure] at h

/-- C1 (amended): for every policy whose combined destination + source +
multicast-by-address filter-list length exceeds 3, configuration fails
fatally at configuration time, after writing only the two station-address
registers and before any filter-slot, filtering-control, or hash-table
register is written. -/
theorem overfull_configure_fails_after_station_writes (f : FrameFiltering)
    (h : 3 < f.filterCount) :
    f.configure =
      ([RegWrite.maca0hr f.address.high, RegWrite.maca0lr f.address.low],
        false) := by
  have hc := configure_eq f
  rw [if_neg (by omega)] at hc
  exact hc

/-- Witness for the amended C1 at the four-destination policy. -/
theorem overfull_configure_fails_after_station_writes_witness :
    overfullPolicy.configure =
      ([RegWrite.maca0hr overfullPolicy.address.high,
        RegWrite.maca0lr overfullPolicy.address.low], false) :=
  overfull_configure_fails_after_station_writes overfullPolicy (by decide)

/-- C2 (code-bug evidence, evaluated at the failing input): samplePolicy has
one destination filter and one source filter (combined length 2, within the
limit), yet the compiled trace programs only slot 1 - two slot-register
writes instead of the four that the claimed destination-then-source
allocation prescribes - no slot write carries the source selector, the
realized slot writes differ from the slot program of the claimed
destination-first plan, and the MACFFR write still enables source filtering
(saf). Cause: Rust Option::or is eager, so every expansion of next_addr_reg
advances the source iterator too, silently dropping the source entry that a
destination entry shadows. -/
theorem configure_drops_shadowed_source :
    samplePolicy.destList.length = 1 ∧
    samplePolicy.sourceList.length = 1 ∧
    samplePolicy.configure.2 = true ∧
    (samplePolicy.configure.1.filter RegWrite.isSlotWrite).length = 2 ∧
    samplePolicy.configure.1.filter
        (fun w => match w with
          | RegWrite.slotHigh _ _ sa _ _ => sa
          | _ => false) = [] ∧
    samplePolicy.configure.1.filter RegWrite.isSlotWrite ≠
      slotProgram 1 (slotPlan samplePolicy.destList samplePolicy.sourceList) ∧
    RegWrite.macffr (expectedMacffr samplePolicy) ∈ samplePolicy.configure.1 ∧
    (expectedMacffr samplePolicy).saf = true := by
  decide

/-- C5: for every policy within the slot limit, the trace contains exactly one
write to the filtering-control register, carrying the control-frame 2-bit code
(BlockAll = 0, NoPause = 1, AllowAll = 2, AddressFilter = 3) and all the other
scalar control bits derived from the policy, batched in that single write. -/
theorem configure_macffr_batched (f : FrameFiltering)
    (h : f.filterCount ≤ 3) :
    f.configure.1.filter RegWrite.isMacffrWrite =
      [RegWrite.macffr (expectedMacffr f)] ∧
    pcfCode ControlFrameFiltering.BlockAll = 0 ∧
    pcfCode ControlFrameFiltering.NoPause = 1 ∧
    pcfCode ControlFrameFiltering.AllowAll = 2 ∧
    pcfCode ControlFrameFiltering.AddressFilter = 3 := by
  refine ⟨?_, rfl, rfl, rfl, rfl⟩
  rw [configure_eq f, if_pos h]
  simp [List.filter_append, slotProgram_no_macffr, RegWrite.isMacffrWrite,
    List.filter]

/-- Witness for C5 at a policy with one destination and one source filter. -/
theorem configure_macffr_batched_witness :
    samplePolicy.configure.1.filter RegWrite.isMacffrWrite =
      [RegWrite.macffr (expectedMacffr samplePolicy)] ∧
    pcfCode ControlFrameFiltering.BlockAll = 0 ∧
    pcfCode ControlFrameFiltering.NoPause = 1 ∧
    pcfCode ControlFrameFiltering.AllowAll = 2 ∧
    pcfCode ControlFrameFiltering.AddressFilter = 3 :=
  configure_macffr_batched samplePolicy (by decide)

/-- The realized overlay of a destination list and an empty source list
programs just the destination entries, in order. -/
theorem slotOverlay_nil_right (d : List MacAddressFilter) :
    slotOverlay d [] = d.map (fun a => (a, false)) := by
  induction d with
  | nil => rfl
  | cons x xs ih => simp [slotOverlay, ih]

/-- The realized overlay has one entry per slot expansion that found an
entry: its length is the maximum of the two list lengths. -/
theorem slotOverlay_length (d s : List MacAddressFilter) :
    (slotOverlay d s).length = max d.length s.length := by
  induction d generalizing s with
  | nil =>
      simp only [slotOverlay, List.length_map, List.length_nil]
      omega
  | cons x xs ih =>
      simp only [slotOverlay, List.length_cons, ih, List.length_tail]
      omega

/-- C9 counterexample: for samplePolicy (one destination and one source
filter, combined count 2) the trace contains two slot-register writes, not
the four that programming a slot for each of the first destination + source
entries would require: no slot is ever written for the source entry. -/
theorem samplePolicy_slot_writes_incomplete :
    samplePolicy.destList.length + samplePolicy.sourceList.length = 2 ∧
    (samplePolicy.configure.1.filter RegWrite.isSlotWrite).length ≠
      2 * (samplePolicy.destList.length + samplePolicy.sourceList.length) := by
  decide

/-- C9 (amended): within the slot limit the filter-slot writes of the trace
are exactly the slot program of the realized overlay - slot i takes the i-th
destination entry if present, else the i-th source entry if present, so
multicast-by-address entries are never programmed into any slot and source
entries shadowed by same-index destination entries are dropped - covering
slots 1 up to max(destination count, source count); no write targets any slot
beyond that, so such a slot's previous hardware contents (including a stale
address-enable bit) persist. Multicast-by-address entries still count against
the limit: when the three-list sum exceeds 3, configuration fails. -/
theorem configure_slots_overlay_bound (f : FrameFiltering) :
    (f.filterCount ≤ 3 →
      f.configure.1.filter RegWrite.isSlotWrite =
          slotProgram 1 ((slotOverlay f.destList f.sourceList).take 3) ∧
        (f.configure.1.filter RegWrite.isSlotWrite).length =
          2 * max f.destList.length f.sourceList.length ∧
        ∀ w ∈ f.configure.1, ∀ s, w.slotIndex = some s →
          1 ≤ s ∧ s ≤ max f.destList.length f.sourceList.length) ∧
    (3 < f.filterCount → f.configure.2 = false) := by
  constructor
  · intro h
    have hds : f.destList.length + f.sourceList.length ≤ 3 := by
      unfold FrameFiltering.filterCount at h
      omega
    have hplan : ((slotOverlay f.destList f.sourceList).take 3).length =
        max f.destList.length f.sourceList.length := by
      simp only [List.length_take, slotOverlay_length]
      omega
    have hfil : f.configure.1.filter RegWrite.isSlotWrite =
        slotProgram 1 ((slotOverlay f.destList f.sourceList).take 3) := by
      rw [configure_eq f, if_pos h]
      simp [List.filter_append, slotProgram_filter_slot, List.filter,
        RegWrite.isSlotWrite, RegWrite.slotIndex]
    refine ⟨hfil, ?_, ?_⟩
    · rw [hfil, slotProgram_length, hplan]
    · intro w hw s hs
      rw [configure_eq f, if_pos h] at hw
      simp only [List.cons_append, List.nil_append, List.mem_cons,
        List.mem_append] at hw
      rcases hw with h1 | h1 | h1 | h1
      · subst h1; simp [RegWrite.slotIndex] at hs
      · subst h1; simp [RegWrite.slotIndex] at hs
      · have hb := (slotProgram_slotIndex 1 _ w h1).2 s hs
        omega
      · rcases h1 with h1 | h1 | h1 | h1
        · subst h1; simp [RegWrite.slotIndex] at hs
        · subst h1; simp [RegWrite.slotIndex] at hs
        · subst h1; simp [RegWrite.slotIndex] at hs
        · simp at h1
  · intro h
    rw [configure_eq f, if_neg (by omega)]

/-- Witness for C9: the overlay characterization at a one-destination,
one-source policy, and the failure at a four-destination policy. -/
theorem configure_slots_overlay_bound_witness :
    samplePolicy.configure.1.filter RegWrite.isSlotWrite =
        slotProgram 1
          ((slotOverlay samplePolicy.destList samplePolicy.sourceList).take 3) ∧
      (samplePolicy.configure.1.filter RegWrite.isSlotWrite).length =
        2 * max samplePolicy.destList.length samplePolicy.sourceList.length ∧
      overfullPolicy.configure.2 = false :=
  ⟨((configure_slots_overlay_bound samplePolicy).1 (by decide)).1,
   ((configure_slots_overlay_bound samplePolicy).1 (by decide)).2.1,
   (configure_slots_overlay_bound overfullPolicy).2 (by decide)⟩

/-- C10: for every policy within the slot limit, the trace contains a
filtering-control write, and every filtering-control write in the trace has
the promiscuous bit and the hash-or-perfect-filter bit cleared. -/
theorem configure_clears_promiscuous_bits (f : FrameFiltering)
    (h : f.filterCount ≤ 3) :
    (∃ flds, RegWrite.macffr flds ∈ f.configure.1) ∧
      ∀ flds : MacffrFields, RegWrite.macffr flds ∈ f.configure.1 →
        flds.pm = false ∧ flds.hpf = false := by
  constructor
  · refine ⟨expectedMacffr f, ?_⟩
    rw [configure_eq f, if_pos h]
    simp
  · intro flds hmem
    rw [configure_eq f, if_pos h] at hmem
    simp only [List.cons_append, List.nil_append, List.mem_cons,
      List.mem_append] at hmem
    rcases hmem with h1 | h1 | h1 | h1
    · exact absurd h1 (by simp)
    · exact absurd h1 (by simp)
    · have hb := (slotProgram_slotIndex 1 _ _ h1).1
      simp [RegWrite.isSlotWrite, RegWrite.slotIndex] at hb
    · rcases h1 with h1 | h1 | h1
      · cases h1
        exact ⟨rfl, rfl⟩
      · exact absurd h1 (by simp)
      · exact absurd h1 (by simp)

/-- Witness for C10 at a policy with one destination and one source filter. -/
theorem configure_clears_promiscuous_bits_witness :
    (expectedMacffr samplePolicy).pm = false ∧
      (expectedMacffr samplePolicy).hpf = false :=
  (configure_clears_promiscuous_bits samplePolicy (by decide)).2
    (expectedMacffr samplePolicy) (by decide)

/-- Every slot-high write of the slot program carries the address-enable bit,
and its source tag, mask bits and address-high value come from some planned
entry. -/
theorem slotProgram_high_writes (k : Nat)
    (plan : List (MacAddressFilter × Bool)) (w : RegWrite)
    (hw : w ∈ slotProgram k plan) :
    ∀ s ae sa mbc ah, w = RegWrite.slotHigh s ae sa mbc ah →
      ∃ e, (e, sa) ∈ plan ∧ ae = true ∧ mbc = e.mask.bits ∧
        ah = e.address.high := by
  induction plan generalizing k with
  | nil => simp [slotProgram] at hw
  | cons p rest ih =>
      obtain ⟨a, psa⟩ := p
      simp only [slotProgram, List.mem_cons] at hw
      intro s ae sa mbc ah he
      rcases hw with h | h | h
      · subst h
        simp only [RegWrite.slotHigh.injEq] at he
        obtain ⟨hks, hae, hsa, hmbc, hah⟩ := he
        subst hsa
        exact ⟨a, List.mem_cons_self _ _, hae.symm, hmbc.symm, hah.symm⟩
      · subst h
        exact absurd he (by simp)
      · obtain ⟨e, hmem, h2, h3, h4⟩ := ih (k + 1) h s ae sa mbc ah he
        exact ⟨e, List.mem_cons_of_mem _ hmem, h2, h3, h4⟩

/-- The filter-slot writes of a successful configuration are the slot program
of the realized overlay plan. -/
theorem configure_filter_slot (f : FrameFiltering) (h : f.filterCount ≤ 3) :
    f.configure.1.filter RegWrite.isSlotWrite =
      slotProgram 1 ((slotOverlay f.destList f.sourceList).take 3) := by
  rw [configure_eq f, if_pos h]
  simp [List.filter_append, slotProgram_filter_slot, List.filter,
    RegWrite.isSlotWrite, RegWrite.slotIndex]

/-- C7: for every station address and up to 3 extra addresses, the
filter_destinations policy has destination mode Normal over the extras with
empty masks and hash-assist off, source mode Ignore, multicast PassAll,
control BlockAll, an empty hash table, and both flags false; compiling it
succeeds, programs two slot-register writes (one slot) per extra address, and
every slot-high write has the enable bit set, the destination selector, and an
all-zero mask. -/
theorem filter_destinations_profile (station : Mac) (extras : List Mac)
    (h : extras.length ≤ 3) :
    (FrameFiltering.filter_destinations station extras).address = station ∧
    (FrameFiltering.filter_destinations station extras).destination_address_filter =
      { perfect_filtering := PerfectDestinationAddressFiltering.Normal
          (extras.map fun a =>
            MacAddressFilter.new a MacAddressFilterMask.empty)
        hash_table_filtering := false } ∧
    (FrameFiltering.filter_destinations station extras).source_address_filter =
      SourceAddressFiltering.Ignore ∧
    (FrameFiltering.filter_destinations station extras).multicast_address_filter =
      MulticastAddressFiltering.PassAll ∧
    (FrameFiltering.filter_destinations station extras).control_filter =
      ControlFrameFiltering.BlockAll ∧
    (FrameFiltering.filter_destinations station extras).hash_table_value =
      { high := 0, low := 0 } ∧
    (FrameFiltering.filter_destinations station extras).filter_broadcast =
      false ∧
    (FrameFiltering.filter_destinations station extras).receive_all = false ∧
    (FrameFiltering.filter_destinations station extras).configure.2 = true ∧
    ((FrameFiltering.filter_destinations station extras).configure.1.filter
        RegWrite.isSlotWrite).length = 2 * extras.length ∧
    ∀ w ∈ (FrameFiltering.filter_destinations station extras).configure.1,
      ∀ s ae sa mbc ah, w = RegWrite.slotHigh s ae sa mbc ah →
        ae = true ∧ sa = false ∧ mbc = 0 := by
  have hcount :
      (FrameFiltering.filter_destinations station extras).filterCount =
        extras.length := by
    simp [FrameFiltering.filter_destinations, FrameFiltering.filterCount,
      FrameFiltering.destList, FrameFiltering.sourceList,
      FrameFiltering.multicastList]
  have hle :
      (FrameFiltering.filter_destinations station extras).filterCount ≤ 3 := by
    omega
  have hdest :
      (FrameFiltering.filter_destinations station extras).destList =
        extras.map fun a =>
          MacAddressFilter.new a MacAddressFilterMask.empty := rfl
  have hsrc :
      (FrameFiltering.filter_destinations station extras).sourceList = [] :=
    rfl
  refine ⟨rfl, rfl, rfl, rfl, rfl, rfl, rfl, rfl, ?_, ?_, ?_⟩
  · rw [configure_eq _, if_pos hle]
  · rw [configure_filter_slot _ hle, slotProgram_length, hdest, hsrc]
    simp only [slotOverlay_nil_right, List.length_take, List.length_map]
    omega
  · intro w hw s ae sa mbc ah he
    rw [configure_eq _, if_pos hle] at hw
    simp only [List.cons_append, List.nil_append, List.mem_cons,
      List.mem_append] at hw
    rcases hw with h1 | h1 | h1 | h1
    · subst h1; exact absurd he (by simp)
    · subst h1; exact absurd he (by simp)
    · obtain ⟨e, hmem, hae, hmbc, hah⟩ :=
        slotProgram_high_writes 1 _ w h1 s ae sa mbc ah he
      rw [hdest, hsrc, slotOverlay_nil_right] at hmem
      have hmem' := List.mem_of_mem_take hmem
      simp only [List.mem_map] at hmem'
      obtain ⟨e', he', heq⟩ := hmem'
      obtain ⟨e'', he'', heq'⟩ := he'
      injection heq with heq1 heq2
      refine ⟨hae, heq2.symm, ?_⟩
      rw [hmbc, ← heq1, ← heq']
      rfl
    · rcases h1 with h1 | h1 | h1 | h1
      · subst h1; exact absurd he (by simp)
      · subst h1; exact absurd he (by simp)
      · subst h1; exact absurd he (by simp)
      · simp at h1

/-- Witness for C7 at station AA:BB:CC:DD:EE:FF with one extra address
11:22:33:44:55:66: the policy fields and the single programmed slot. -/
theorem filter_destinations_profile_witness :
    (FrameFiltering.filter_destinations
        { b0 := 170, b1 := 187, b2 := 204, b3 := 221, b4 := 238, b5 := 255 }
        [{ b0 := 17, b1 := 34, b2 := 51, b3 := 68, b4 := 85, b5 := 102 }]).source_address_filter =
      SourceAddressFiltering.Ignore ∧
    (FrameFiltering.filter_destinations
        { b0 := 170, b1 := 187, b2 := 204, b3 := 221, b4 := 238, b5 := 255 }
        [{ b0 := 17, b1 := 34, b2 := 51, b3 := 68, b4 := 85, b5 := 102 }]).configure.2 =
      true ∧
    ((FrameFiltering.filter_destinations
        { b0 := 170, b1 := 187, b2 := 204, b3 := 221, b4 := 238, b5 := 255 }
        [{ b0 := 17, b1 := 34, b2 := 51, b3 := 68, b4 := 85, b5 := 102 }]).configure.1.filter
        RegWrite.isSlotWrite).length =
      2 * [({ b0 := 17, b1 := 34, b2 := 51, b3 := 68, b4 := 85
              b5 := 102 } : Mac)].length := by
  have hp := filter_destinations_profile
    { b0 := 170, b1 := 187, b2 := 204, b3 := 221, b4 := 238, b5 := 255 }
    [{ b0 := 17, b1 := 34, b2 := 51, b3 := 68, b4 := 85, b5 := 102 }]
    (by decide)
  exact ⟨hp.2.2.1, hp.2.2.2.2.2.2.2.2.1, hp.2.2.2.2.2.2.2.2.2.1⟩

/-- Running a schedule splits over concatenation. -/
theorem pollRun_append (st : PollState) (l1 l2 : List PollAction) :
    pollRun st (l1 ++ l2) = pollRun (pollRun st l1) l2 := by
  induction l1 generalizing st with
  | nil => rfl
  | cons a l ih => simp [pollRun, ih]

/-- A burst of interrupt firings sets the pending flag when nonempty and
changes nothing else. -/
theorem pollRun_replicate_isr (n : Nat) (st : PollState) :
    pollRun st (List.replicate n PollAction.isrFire) =
      if n = 0 then st else { st with pending := true } := by
  induction n generalizing st with
  | zero => rfl
  | succ n ih =>
      simp only [List.replicate_succ, pollRun, pollStep, ih]
      by_cases h : n = 0 <;> simp [h]

/-- C8: in every poll-loop iteration, whatever interrupts fire at whatever
points, the pending flag is cleared before the receive drain (the clear
precedes the drain in the schedule), the iteration suspends with
wait-for-interrupt exactly when no interrupt fired between the clear and the
atomic final re-check, and whenever an interrupt fired after the clear (so
the pending flag is set at the re-check) the loop does not suspend. -/
theorem poll_loop_clears_then_checks (p0 : Bool) (w0 a0 a1 a2 a3 : Nat) :
    (∃ pre mid, iterationSched a0 a1 a2 a3 =
        pre ++ PollAction.clearFlag :: mid ∧
        PollAction.drainRx ∉ pre ∧ PollAction.drainRx ∈ mid) ∧
    ((pollRun { pending := p0, wfiCount := w0 }
        (iterationSched a0 a1 a2 a3)).wfiCount = w0 + 1 ↔
      a1 + a2 + a3 = 0) ∧
    (0 < a1 + a2 + a3 →
      (pollRun { pending := p0, wfiCount := w0 }
          (iterationSched a0 a1 a2 a3)).wfiCount = w0 ∧
        (pollRun { pending := p0, wfiCount := w0 }
            (iterationSched a0 a1 a2 a3)).pending = true) := by
  have hrun : pollRun { pending := p0, wfiCount := w0 }
      (iterationSched a0 a1 a2 a3) =
      if a1 + a2 + a3 = 0 then { pending := false, wfiCount := w0 + 1 }
      else { pending := true, wfiCount := w0 } := by
    simp only [iterationSched, pollRun_append, pollRun_replicate_isr, pollRun,
      pollStep]
    by_cases h1 : a1 = 0 <;> by_cases h2 : a2 = 0 <;> by_cases h3 : a3 = 0 <;>
      by_cases h0 : a0 = 0 <;>
      simp [h0, h1, h2, h3, pollRun, pollStep]
  refine ⟨⟨List.replicate a0 PollAction.isrFire,
    List.replicate a1 PollAction.isrFire ++
      PollAction.drainRx ::
        (List.replicate a2 PollAction.isrFire ++
          PollAction.fillTx ::
            (List.replicate a3 PollAction.isrFire ++
              [PollAction.sleepCheck])), rfl, ?_, ?_⟩, ?_, ?_⟩
  · simp [List.mem_replicate]
  · simp
  · rw [hrun]
    by_cases h : a1 + a2 + a3 = 0
    · rw [if_pos h]
      simp [h]
    · rw [if_neg h]
      simp [h]
  · intro h
    rw [hrun, if_neg (by omega)]
    exact ⟨rfl, rfl⟩

/-- Witness for C8: with one interrupt firing between the clear and the drain,
the iteration does not suspend and ends with the pending flag still set. -/
theorem poll_loop_clears_then_checks_witness :
    (pollRun { pending := false, wfiCount := 0 }
        (iterationSched 0 1 0 0)).wfiCount = 0 ∧
      (pollRun { pending := false, wfiCount := 0 }
          (iterationSched 0 1 0 0)).pending = true :=
  (poll_loop_clears_then_checks false 0 0 1 0 0).2.2 (by decide)
